import Mathlib

/-
  Shallow embedding of the dependency-bot webhook handler
  (src/index.js): the dependency diff engine (diffdeps and the
  per-manifest aggregation in run), the comment formatter
  (formatResponse), the candidate-file filter, and the request
  authentication gate (assertRequestAuth, equal).

  Modelling conventions:
  * A JS object used as a dependency section is an association list in
    for-in iteration order; JS guarantees keys are unique within one
    object, and string lookups return the first matching entry.
  * JS truthiness of a section value: an object (even an empty one) is
    truthy; undefined (missing key), null and false are falsy.
  * JS truthiness of a record field holding a string or undefined: a
    nonempty string is truthy; undefined and the empty string are falsy.
  * The HMAC-SHA1 digest in sign() is a cryptographic primitive and is
    kept opaque: run and assertRequestAuth take the whole sign function
    as a parameter.
-/

namespace DependencyBot

/-- A dependency-section value as seen by diffdeps: the value of
manifest[key], which is either missing (undefined), the JSON value
null, the JSON value false, or an object mapping package names to
version-range strings in for-in iteration order. -/
inductive JsonSection where
  | missing : JsonSection
  | null : JsonSection
  | bfalse : JsonSection
  | map : List (String × String) → JsonSection
deriving DecidableEq, Repr, Inhabited

/-- JS truthiness of a section value: objects are truthy, undefined,
null and false are falsy. -/
def JsonSection.truthy : JsonSection → Bool
  | JsonSection.map _ => true
  | _ => false

/-- A parsed manifest, restricted to the five recognized dependency
sections; no other field of package.json is ever consulted by the
code. A field holds JsonSection.missing when the key is absent. -/
structure Manifest where
  bundledDependencies : JsonSection := JsonSection.missing
  dependencies : JsonSection := JsonSection.missing
  devDependencies : JsonSection := JsonSection.missing
  optionalDependencies : JsonSection := JsonSection.missing
  peerDependencies : JsonSection := JsonSection.missing
deriving DecidableEq, Repr, Inhabited

/-- DEPENDENCY_KEYS from src/index.js, in source order. -/
def DEPENDENCY_KEYS : List String :=
  ["bundledDependencies", "dependencies", "devDependencies",
   "optionalDependencies", "peerDependencies"]

/-- Property lookup manifest[key]: the five recognized keys map to the
corresponding field; any other key reads as undefined (missing). -/
def Manifest.get (m : Manifest) (key : String) : JsonSection :=
  if key = "bundledDependencies" then m.bundledDependencies
  else if key = "dependencies" then m.dependencies
  else if key = "devDependencies" then m.devDependencies
  else if key = "optionalDependencies" then m.optionalDependencies
  else if key = "peerDependencies" then m.peerDependencies
  else JsonSection.missing

/-- One dependency-change record as built by diffdeps: the JS object
has a name and optionally previous and current fields (a field set to
a string, or left undefined). -/
structure DepChange where
  name : String
  previous : Option String := none
  current : Option String := none
deriving DecidableEq, Repr, Inhabited

/-- hasOwn(obj, key) from src/index.js line 15: own-property test on
an association list. -/
def hasOwn (s : List (String × String)) (key : String) : Bool :=
  s.any (fun e => e.1 == key)

/-- Property read obj[key]: the first entry with this key (JS objects
have unique keys, so this is the entry); every use in the source is
guarded by hasOwn, the default is never observed. -/
def getVal (s : List (String × String)) (key : String) : String :=
  match s.find? (fun e => e.1 == key) with
  | some e => e.2
  | none => ""

/-- The keys of a section object in for-in iteration order. -/
def sectionKeys (s : List (String × String)) : List String :=
  s.map Prod.fst

/-- First loop of diffdeps (lines 81-86): for key in current, if
hasOwn(current, key) and not hasOwn(original, key), push
a record with name and current fields only. -/
def addedChanges (o c : List (String × String)) : List DepChange :=
  (sectionKeys c).filterMap (fun k =>
    if hasOwn c k && !(hasOwn o k) then
      some { name := k, current := some (getVal c k) }
    else none)

/-- Second loop of diffdeps (lines 87-92): for key in original, if
hasOwn(original, key) and not hasOwn(current, key), push a record with
name and previous fields only. -/
def removedChanges (o c : List (String × String)) : List DepChange :=
  (sectionKeys o).filterMap (fun k =>
    if hasOwn o k && !(hasOwn c k) then
      some { name := k, previous := some (getVal o k) }
    else none)

/-- Third loop of diffdeps (lines 93-99): for key in original, if the
key is in both objects and the string values differ under exact
comparison, push a record with name, current and previous fields. -/
def changedChanges (o c : List (String × String)) : List DepChange :=
  (sectionKeys o).filterMap (fun k =>
    if hasOwn o k && hasOwn c k && getVal o k != getVal c k then
      some { name := k, previous := some (getVal o k),
             current := some (getVal c k) }
    else none)

/-- diffdeps(original, current) from src/index.js lines 75-101: if
either argument is falsy (missing key, null, false) the result is
null (modelled as none); otherwise the concatenation of the three
loops in source order: added, then removed, then changed. -/
def diffdeps : JsonSection → JsonSection → Option (List DepChange)
  | JsonSection.map o, JsonSection.map c =>
      some (addedChanges o c ++ removedChanges o c ++ changedChanges o c)
  | _, _ => none

/-- The per-file aggregation generalized over a key list. -/
def diffManifestKeys (ks : List String) (o c : Manifest) : List DepChange :=
  ((ks.map (fun k => diffdeps (o.get k) (c.get k))).filterMap id).flatten

/-- Lines 49-50 of src/index.js: DEPENDENCY_KEYS.map(key =>
diffdeps(original[key], current[key])), flattened, with null results
dropped by filter(Boolean). The spec calls this diffManifest. -/
def diffManifest (o c : Manifest) : List DepChange :=
  diffManifestKeys DEPENDENCY_KEYS o c

/-- JS truthiness of a record field: undefined (none) and the empty
string are falsy, a nonempty string is truthy. -/
def fieldTruthy : Option String → Bool
  | some s => !(s == "")
  | none => false

/-- Rendering of a possibly-undefined field inside a template literal:
undefined renders as the text undefined. -/
def fieldText : Option String → String
  | some s => s
  | none => "undefined"

/-- One per-file diff result as passed to formatResponse. -/
structure FileDiff where
  name : String
  dependencies : List DepChange
deriving DecidableEq, Repr, Inhabited

/-- A hex digit character for code points below 16. -/
def hexDigit (n : Nat) : Char :=
  if n < 10 then Char.ofNat (48 + n) else Char.ofNat (87 + n)

/-- Four-hex-digit rendering used by the JSON control-character
escape. -/
def hex4 (n : Nat) : String :=
  String.mk [hexDigit (n / 4096 % 16), hexDigit (n / 256 % 16),
             hexDigit (n / 16 % 16), hexDigit (n % 16)]

/-- JSON.stringify escaping of one character of a string. -/
def jsonEscapeChar (c : Char) : String :=
  if c = '"' then "\\\""
  else if c = '\\' then "\\\\"
  else if c = '\n' then "\\n"
  else if c = '\r' then "\\r"
  else if c = '\t' then "\\t"
  else if c = Char.ofNat 8 then "\\b"
  else if c = Char.ofNat 12 then "\\f"
  else if c.toNat < 32 then "\\u" ++ hex4 c.toNat
  else String.singleton c

/-- JSON.stringify of a string value, as used for the file name in the
sub-header. -/
def jsonQuote (s : String) : String :=
  "\"" ++ String.join (s.toList.map jsonEscapeChar) ++ "\""

/-- The added group re-derived by the formatter (line 106): records
with a falsy previous and a truthy current field. -/
def addedGroup (deps : List DepChange) : List DepChange :=
  deps.filter (fun pkg => !(fieldTruthy pkg.previous) && fieldTruthy pkg.current)

/-- The changed group re-derived by the formatter (line 107): records
with truthy previous and current fields. -/
def changedGroup (deps : List DepChange) : List DepChange :=
  deps.filter (fun pkg => fieldTruthy pkg.previous && fieldTruthy pkg.current)

/-- The removed group re-derived by the formatter (line 108): records
with a truthy previous and a falsy current field. -/
def removedGroup (deps : List DepChange) : List DepChange :=
  deps.filter (fun pkg => fieldTruthy pkg.previous && !(fieldTruthy pkg.current))

/-- The lines pushed into the fenced block for one file, in source
order: changed, then added, then removed (lines 110-113). -/
def blockLines (deps : List DepChange) : List String :=
  (changedGroup deps).map (fun pkg =>
      "+ " ++ pkg.name ++ "@" ++ fieldText pkg.current
        ++ " (from " ++ fieldText pkg.previous ++ ")")
  ++ (addedGroup deps).map (fun pkg =>
      "+ " ++ pkg.name ++ "@" ++ fieldText pkg.current)
  ++ (removedGroup deps).map (fun pkg =>
      "- " ++ pkg.name ++ "@" ++ fieldText pkg.previous)

/-- The text appended for one file by the forEach body of
formatResponse (lines 105-115): sub-header, then the fenced code
block. -/
def formatFile (file : FileDiff) : String :=
  "\n" ++ jsonQuote file.name ++ " *("
    ++ toString (changedGroup file.dependencies).length ++ " modified, "
    ++ toString (addedGroup file.dependencies).length ++ " added, "
    ++ toString (removedGroup file.dependencies).length ++ " removed)*:\n"
    ++ "```\n" ++ String.intercalate "\n" (blockLines file.dependencies)
    ++ "\n```"

/-- formatResponse(files, base, head) from lines 103-117, taking the
base and head shas directly. -/
def formatResponse (files : List FileDiff) (baseSha headSha : String) : String :=
  baseSha ++ "..." ++ headSha ++ " includes dependency changes!\n"
    ++ String.join (files.map formatFile)

/-- One entry of diff.files as returned by the compare API. -/
structure DiffFile where
  status : String
  filename : String
deriving DecidableEq, Repr, Inhabited

/-- The regex test on line 29: the pattern is anchored at both ends
with the dot escaped, so it accepts exactly the string
package.json and nothing else. -/
def isPackageJsonName (s : String) : Bool :=
  s == "package.json"

/-- EVENT_NAME from line 6. -/
def EVENT_NAME : String := "pull_request"

/-- VALID_ACTIONS from line 7. -/
def VALID_ACTIONS : List String := ["opened", "synchronize"]

/-- ToInt32(ToNumber(s)) for a single-character JS string, as it
occurs in the xor of the equal function when applied to strings: an
ASCII digit converts to its value, every other single character
converts to NaN or 0, and ToInt32 sends both to 0. -/
def jsCharToInt32 (c : Char) : Nat :=
  if 48 ≤ c.toNat ∧ c.toNat ≤ 57 then c.toNat - 48 else 0

/-- equal(actual, expected) from lines 140-147, applied to strings as
run does: falsy (empty) operands compare unequal, lengths must match,
and the accumulated xor of the per-position int32 coercions must be
zero. -/
def equal (actual expected : String) : Bool :=
  if actual.isEmpty || expected.isEmpty then false
  else if actual.length != expected.length then false
  else (actual.toList.zip expected.toList).all
    (fun p => jsCharToInt32 p.1 == jsCharToInt32 p.2)

/-- The incoming webhook context: the headers, body, secrets and query
flag that run and assertRequestAuth consult. The string body stands
for JSON.stringify(ctx.body); a missing header reads as the empty
string (both are falsy in JS). -/
structure Ctx where
  eventName : String
  signature : String
  action : String
  body : String
  sharedSecret : String
  baseSha : String
  headSha : String
  dry : Bool
deriving DecidableEq, Repr, Inhabited

/-- assertRequestAuth from lines 120-133, with the sign function
(HMAC-SHA1 with the shared secret, prefixed sha1=) passed in
opaquely. Errors are returned as Except.error with the exact message
text. -/
def assertRequestAuth (sign : String → String → String) (ctx : Ctx) :
    Except String Unit :=
  if ctx.eventName ≠ EVENT_NAME then
    Except.error ("github event not supported: \"" ++ ctx.eventName ++ "\"")
  else if !(equal (sign ctx.body ctx.sharedSecret) ctx.signature) then
    Except.error "invalid signature"
  else if !(VALID_ACTIONS.contains ctx.action) then
    Except.error ("action not supported: \"" ++ ctx.eventName ++ "."
      ++ ctx.action ++ "\"")
  else Except.ok ()

/-- The external GitHub API, as consulted by run: the changed-file
list of the compare call, and the parsed manifest returned by the blob
call for a given ref and path. -/
structure Github where
  compareFiles : List DiffFile
  blob : String → String → Manifest

/-- The candidate filter on line 29: status exactly modified and the
anchored package.json name test. -/
def candidateFiles (gh : Github) : List DiffFile :=
  gh.compareFiles.filter
    (fun el => el.status == "modified" && isPackageJsonName el.filename)

/-- Lines 44-52: pair one candidate file with the dependency diff of
its old blob (at the base sha) against its new blob (at the head
sha). -/
def fileDiffOf (gh : Github) (ctx : Ctx) (f : DiffFile) : FileDiff :=
  { name := f.filename,
    dependencies := diffManifest (gh.blob ctx.baseSha f.filename)
                                 (gh.blob ctx.headSha f.filename) }

/-- The non-error outcome of run: either a message object (the
no-change result or the dry-run body) or a posted comment. -/
inductive RunResult where
  | message : String → RunResult
  | comment : String → RunResult
deriving DecidableEq, Repr

/-- run from lines 17-73: authenticate, filter candidates, diff each
candidate, short-circuit to the no-change message when the candidate
list is empty or any candidate has an empty change list, otherwise
format and either return the body (dry run) or post it as a
comment. -/
def run (sign : String → String → String) (gh : Github) (ctx : Ctx) :
    Except String RunResult :=
  match assertRequestAuth sign ctx with
  | Except.error e => Except.error e
  | Except.ok _ =>
    let files := candidateFiles gh
    if files.isEmpty then Except.ok (RunResult.message "no dependencies changed")
    else
      let fileDiffs := files.map (fileDiffOf gh ctx)
      if fileDiffs.any (fun fd => fd.dependencies.isEmpty) then
        Except.ok (RunResult.message "no dependencies changed")
      else
        let body := formatResponse fileDiffs ctx.baseSha ctx.headSha
        if ctx.dry then Except.ok (RunResult.message body)
        else Except.ok (RunResult.comment body)

/-- Swapping the previous and current fields of a record, the
conceptual role reversal of the spec. -/
def swapChange (r : DepChange) : DepChange :=
  { name := r.name, previous := r.current, current := r.previous }

/-- The manifests of the worked example in the spec. -/
def exOriginal : Manifest :=
  { dependencies := JsonSection.map [("a", "^1.0.0"), ("b", "^1.0.0")] }

/-- The manifests of the worked example in the spec. -/
def exCurrent : Manifest :=
  { dependencies := JsonSection.map [("a", "^2.0.0"), ("c", "1.0.0")] }

/-- The manifest with every section key missing. -/
def emptyManifest : Manifest := {}

/-- The file diff of the formatter example in the spec. -/
def exFormatFile : FileDiff :=
  { name := "package.json",
    dependencies :=
      [ { name := "honeybee", previous := some "^1.0.0", current := some "^2.0.0" },
        { name := "bluebird", current := some "2.0.0" },
        { name := "browserify", previous := some "^1.0.0" } ] }

/-- The Added-at-the-empty-range record that witnesses the formatter
partition gap. -/
def emptyRangeRecord : DepChange :=
  { name := "a", previous := none, current := some "" }

/-- A one-record file diff holding the empty-range record. -/
def emptyRangeFile : FileDiff :=
  { name := "package.json", dependencies := [emptyRangeRecord] }

/-- A compare result whose only changed file is a modified
package.json inside a subdirectory. -/
def ghSubdir : Github :=
  { compareFiles := [ { status := "modified", filename := "sub/package.json" } ],
    blob := fun _ _ => emptyManifest }

theorem hasOwn_iff (s : List (String × String)) (k : String) :
    hasOwn s k = true ↔ k ∈ sectionKeys s := by
  simp [hasOwn, sectionKeys, List.any_eq_true, List.mem_map]

theorem mem_addedChanges (o c : List (String × String)) (r : DepChange) :
    r ∈ addedChanges o c ↔
      ∃ k, hasOwn c k = true ∧ hasOwn o k = false
        ∧ r = { name := k, previous := none, current := some (getVal c k) } := by
  simp only [addedChanges, List.mem_filterMap, Option.ite_none_right_eq_some,
    Option.some.injEq, Bool.and_eq_true, Bool.not_eq_true']
  constructor
  · rintro ⟨k, hk, ⟨h1, h2⟩, hr⟩
    exact ⟨k, h1, h2, hr.symm⟩
  · rintro ⟨k, h1, h2, hr⟩
    exact ⟨k, (hasOwn_iff c k).1 h1, ⟨h1, h2⟩, hr.symm⟩

theorem mem_removedChanges (o c : List (String × String)) (r : DepChange) :
    r ∈ removedChanges o c ↔
      ∃ k, hasOwn o k = true ∧ hasOwn c k = false
        ∧ r = { name := k, previous := some (getVal o k), current := none } := by
  simp only [removedChanges, List.mem_filterMap, Option.ite_none_right_eq_some,
    Option.some.injEq, Bool.and_eq_true, Bool.not_eq_true']
  constructor
  · rintro ⟨k, hk, ⟨h1, h2⟩, hr⟩
    exact ⟨k, h1, h2, hr.symm⟩
  · rintro ⟨k, h1, h2, hr⟩
    exact ⟨k, (hasOwn_iff o k).1 h1, ⟨h1, h2⟩, hr.symm⟩

theorem mem_changedChanges (o c : List (String × String)) (r : DepChange) :
    r ∈ changedChanges o c ↔
      ∃ k, hasOwn o k = true ∧ hasOwn c k = true ∧ getVal o k ≠ getVal c k
        ∧ r = { name := k, previous := some (getVal o k),
                current := some (getVal c k) } := by
  simp only [changedChanges, List.mem_filterMap, Option.ite_none_right_eq_some,
    Option.some.injEq, Bool.and_eq_true, bne_iff_ne, ne_eq]
  constructor
  · rintro ⟨k, hk, ⟨⟨h1, h2⟩, h3⟩, hr⟩
    exact ⟨k, h1, h2, h3, hr.symm⟩
  · rintro ⟨k, h1, h2, h3, hr⟩
    exact ⟨k, (hasOwn_iff o k).1 h1, ⟨⟨h1, h2⟩, h3⟩, hr.symm⟩

theorem addedChanges_self (s : List (String × String)) : addedChanges s s = [] := by
  simp only [addedChanges, List.filterMap_eq_nil_iff]
  intro k hk
  cases h : hasOwn s k <;> simp [h]

theorem removedChanges_self (s : List (String × String)) : removedChanges s s = [] := by
  simp only [removedChanges, List.filterMap_eq_nil_iff]
  intro k hk
  cases h : hasOwn s k <;> simp [h]

theorem changedChanges_self (s : List (String × String)) : changedChanges s s = [] := by
  simp only [changedChanges, List.filterMap_eq_nil_iff]
  intro k hk
  simp

theorem diffdeps_self_cases (v : JsonSection) :
    diffdeps v v = none ∨ diffdeps v v = some [] := by
  cases v
  case map s =>
    right
    simp [diffdeps, addedChanges_self, removedChanges_self, changedChanges_self]
  all_goals left ; rfl

theorem diffManifestKeys_nil (o c : Manifest) : diffManifestKeys [] o c = [] := rfl

theorem diffManifestKeys_cons (k : String) (ks : List String) (o c : Manifest) :
    diffManifestKeys (k :: ks) o c
      = (diffdeps (o.get k) (c.get k)).getD [] ++ diffManifestKeys ks o c := by
  cases h : diffdeps (o.get k) (c.get k) <;>
    simp [diffManifestKeys, List.filterMap_cons, h]

theorem diffManifestKeys_self (ks : List String) (A : Manifest) :
    diffManifestKeys ks A A = [] := by
  induction ks with
  | nil => rfl
  | cons k t ih =>
    rw [diffManifestKeys_cons, ih]
    rcases diffdeps_self_cases (A.get k) with h | h <;> simp [h]

theorem diffdeps_missing_left (w : JsonSection) :
    diffdeps JsonSection.missing w = none := by
  cases w <;> rfl

theorem diffdeps_missing_right (v : JsonSection) :
    diffdeps v JsonSection.missing = none := by
  cases v <;> rfl

theorem swapChange_involutive (r : DepChange) : swapChange (swapChange r) = r := rfl

theorem swapChange_name (r : DepChange) : (swapChange r).name = r.name := rfl

theorem mem_append3 (r : DepChange) (a b c : List DepChange) :
    r ∈ a ++ b ++ c ↔ r ∈ a ∨ r ∈ b ∨ r ∈ c := by
  simp [List.mem_append, or_assoc]

theorem mem_groups_swap (o c : List (String × String)) (r : DepChange)
    (h : r ∈ addedChanges o c ++ removedChanges o c ++ changedChanges o c) :
    swapChange r ∈ addedChanges c o ++ removedChanges c o ++ changedChanges c o := by
  rw [mem_append3] at h ⊢
  rcases h with h | h | h
  · obtain ⟨k, h1, h2, rfl⟩ := (mem_addedChanges o c r).1 h
    right ; left
    exact (mem_removedChanges c o _).2 ⟨k, h1, h2, rfl⟩
  · obtain ⟨k, h1, h2, rfl⟩ := (mem_removedChanges o c r).1 h
    left
    exact (mem_addedChanges c o _).2 ⟨k, h1, h2, rfl⟩
  · obtain ⟨k, h1, h2, h3, rfl⟩ := (mem_changedChanges o c r).1 h
    right ; right
    exact (mem_changedChanges c o _).2 ⟨k, h2, h1, Ne.symm h3, rfl⟩

theorem mem_diffdeps_swap (v w : JsonSection) (r : DepChange) :
    (∃ l, diffdeps v w = some l ∧ r ∈ l)
      ↔ (∃ l, diffdeps w v = some l ∧ swapChange r ∈ l) := by
  cases v <;> cases w <;>
    simp only [diffdeps, Option.some.injEq, reduceCtorEq,
      false_and, exists_false, exists_eq_left]
  case map.map o c =>
    constructor
    · rintro ⟨l, rfl, hr⟩
      exact ⟨_, rfl, mem_groups_swap o c r hr⟩
    · rintro ⟨l, rfl, hr⟩
      have h2 := mem_groups_swap c o (swapChange r) hr
      rw [swapChange_involutive] at h2
      exact ⟨_, rfl, h2⟩

theorem mem_diffManifestKeys (ks : List String) (o c : Manifest) (r : DepChange) :
    r ∈ diffManifestKeys ks o c
      ↔ ∃ k ∈ ks, ∃ l, diffdeps (o.get k) (c.get k) = some l ∧ r ∈ l := by
  induction ks with
  | nil => simp [diffManifestKeys_nil]
  | cons k t ih =>
    rw [diffManifestKeys_cons, List.mem_append, ih]
    constructor
    · rintro (h | ⟨j, hj, l, hl, hr⟩)
      · cases hd : diffdeps (o.get k) (c.get k) with
        | none => rw [hd] at h ; simp at h
        | some l =>
          rw [hd] at h
          exact ⟨k, List.mem_cons_self k t, l, hd, by simpa using h⟩
      · exact ⟨j, List.mem_cons_of_mem k hj, l, hl, hr⟩
    · rintro ⟨j, hj, l, hl, hr⟩
      rcases List.mem_cons.1 hj with rfl | hj2
      · left ; rw [hl] ; simpa using hr
      · right ; exact ⟨j, hj2, l, hl, hr⟩

theorem mem_diffManifest_swap (A B : Manifest) (r : DepChange) :
    r ∈ diffManifest B A ↔ swapChange r ∈ diffManifest A B := by
  simp only [diffManifest, mem_diffManifestKeys]
  constructor
  · rintro ⟨k, hk, l, hl, hr⟩
    obtain ⟨l2, hl2, hr2⟩ := (mem_diffdeps_swap (B.get k) (A.get k) r).1 ⟨l, hl, hr⟩
    exact ⟨k, hk, l2, hl2, hr2⟩
  · rintro ⟨k, hk, l, hl, hr⟩
    have h0 : ∃ l0, diffdeps (A.get k) (B.get k) = some l0 ∧ swapChange r ∈ l0 :=
      ⟨l, hl, hr⟩
    obtain ⟨l2, hl2, hr2⟩ := (mem_diffdeps_swap (A.get k) (B.get k) (swapChange r)).1 h0
    rw [swapChange_involutive] at hr2
    exact ⟨k, hk, l2, hl2, hr2⟩

theorem append_ne_empty_left (a b : String) (ha : a ≠ "") : a ++ b ≠ "" := by
  intro h
  apply ha
  have hd := congrArg String.data h
  rw [String.data_append] at hd
  have h2 : a.data = [] := (List.append_eq_nil.mp hd).1
  exact String.ext (by simpa using h2)

theorem diffManifestKeys_erase_of_none (ks : List String) (k : String)
    (o c : Manifest) (hnone : diffdeps (o.get k) (c.get k) = none) :
    diffManifestKeys ks o c = diffManifestKeys (ks.erase k) o c := by
  induction ks with
  | nil => rfl
  | cons j t ih =>
    by_cases hj : j = k
    · subst hj
      rw [List.erase_cons_head, diffManifestKeys_cons, hnone]
      rfl
    · rw [List.erase_cons_tail (by simpa using hj), diffManifestKeys_cons,
        diffManifestKeys_cons, ih]

theorem group_length_sum (deps : List DepChange) :
    (changedGroup deps).length + (addedGroup deps).length + (removedGroup deps).length
      = (deps.filter (fun r => fieldTruthy r.previous || fieldTruthy r.current)).length := by
  induction deps with
  | nil => rfl
  | cons r t ih =>
    simp only [changedGroup, addedGroup, removedGroup, List.filter_cons] at ih ⊢
    cases hp : fieldTruthy r.previous <;> cases hc : fieldTruthy r.current <;>
      simp [hp, hc] <;> omega

/-- Claim C1: diffdeps on two present sections returns the
concatenation, in this order, of the Added records (keys of current
absent from original, carrying the new range), the Removed records
(keys of original absent from current, carrying the previous range)
and the Changed records (keys in both whose string values differ,
carrying both ranges); identical string values produce no record, and
on the worked example from the spec the manifest-level diff is exactly
Added c at 1.0.0, Removed b at caret 1.0.0 and Changed a from caret
1.0.0 to caret 2.0.0. -/
theorem diffdeps_three_groups (o c : List (String × String)) :
    diffdeps (JsonSection.map o) (JsonSection.map c)
        = some (addedChanges o c ++ removedChanges o c ++ changedChanges o c)
    ∧ (∀ r : DepChange, r ∈ addedChanges o c ↔
        ∃ k, hasOwn c k = true ∧ hasOwn o k = false
          ∧ r = { name := k, previous := none, current := some (getVal c k) })
    ∧ (∀ r : DepChange, r ∈ removedChanges o c ↔
        ∃ k, hasOwn o k = true ∧ hasOwn c k = false
          ∧ r = { name := k, previous := some (getVal o k), current := none })
    ∧ (∀ r : DepChange, r ∈ changedChanges o c ↔
        ∃ k, hasOwn o k = true ∧ hasOwn c k = true ∧ getVal o k ≠ getVal c k
          ∧ r = { name := k, previous := some (getVal o k),
                  current := some (getVal c k) })
    ∧ diffManifest exOriginal exCurrent =
        [ { name := "c", previous := none, current := some "1.0.0" },
          { name := "b", previous := some "^1.0.0", current := none },
          { name := "a", previous := some "^1.0.0", current := some "^2.0.0" } ] :=
  ⟨rfl, mem_addedChanges o c, mem_removedChanges o c, mem_changedChanges o c,
    by decide⟩

/-- Claim C3 (evaluation at the failing input): the candidate filter
on line 29 accepts only the exact path package.json, so a modified
file named sub slash package.json is excluded from the candidate set,
while package.json.bak and mypackage.json are also excluded. -/
theorem candidate_filter_root_only :
    isPackageJsonName "package.json" = true
    ∧ isPackageJsonName "sub/package.json" = false
    ∧ isPackageJsonName "package.json.bak" = false
    ∧ isPackageJsonName "mypackage.json" = false
    ∧ candidateFiles ghSubdir = [] := by
  refine ⟨rfl, rfl, rfl, rfl, rfl⟩

/-- Claim C4: formatResponse starts with the exact header line
followed by a newline, and on the formatter example from the spec the
per-file section is exactly the sub-header with counts 1 modified, 1
added, 1 removed followed by a fenced block whose lines appear in the
order Changed, Added, Removed. -/
theorem formatResponse_header_and_example (files : List FileDiff)
    (baseSha headSha : String) :
    formatResponse files baseSha headSha
        = baseSha ++ "..." ++ headSha ++ " includes dependency changes!\n"
          ++ String.join (files.map formatFile)
    ∧ formatFile exFormatFile
        = "\n\"package.json\" *(1 modified, 1 added, 1 removed)*:\n"
          ++ "```\n+ honeybee@^2.0.0 (from ^1.0.0)\n+ bluebird@2.0.0\n- browserify@^1.0.0\n```"
    ∧ formatResponse [exFormatFile] "abc" "def"
        = "abc...def includes dependency changes!\n"
          ++ "\n\"package.json\" *(1 modified, 1 added, 1 removed)*:\n"
          ++ "```\n+ honeybee@^2.0.0 (from ^1.0.0)\n+ bluebird@2.0.0\n- browserify@^1.0.0\n```" := by
  refine ⟨rfl, by decide, by decide⟩

/-- Claim C5: for each of the five recognized section names, if the
section key is missing from either manifest then diffdeps returns
absent (none, not an empty list), and the section contributes no
records to the manifest diff: the diff equals the aggregation over the
key list with that key erased. -/
theorem absent_section_contributes_nothing (a b : Manifest) (k : String)
    (_hk : k ∈ DEPENDENCY_KEYS)
    (h : a.get k = JsonSection.missing ∨ b.get k = JsonSection.missing) :
    diffdeps (a.get k) (b.get k) = none
    ∧ diffManifest a b = diffManifestKeys (DEPENDENCY_KEYS.erase k) a b := by
  have hnone : diffdeps (a.get k) (b.get k) = none := by
    rcases h with h | h
    · rw [h] ; exact diffdeps_missing_left _
    · rw [h] ; exact diffdeps_missing_right _
  exact ⟨hnone, diffManifestKeys_erase_of_none DEPENDENCY_KEYS k a b hnone⟩

/-- Witness for claim C5 at the all-missing manifest and the
dependencies key. -/
theorem absent_section_contributes_nothing_witness :
    diffdeps (emptyManifest.get "dependencies") (emptyManifest.get "dependencies") = none
    ∧ diffManifest emptyManifest emptyManifest
        = diffManifestKeys (DEPENDENCY_KEYS.erase "dependencies")
            emptyManifest emptyManifest :=
  absent_section_contributes_nothing emptyManifest emptyManifest "dependencies"
    (by decide) (Or.inl rfl)

/-- Claim C6 counterexample: the record with name a and current set to
the empty string is produced by diffdeps (adding a package at the
empty range string), yet the formatter's three groups all miss it, so
the groups do not cover every record: it is counted in none of the
three counts and rendered as no line at all. -/
theorem formatter_partition_gap :
    diffdeps (JsonSection.map []) (JsonSection.map [("a", "")])
        = some [emptyRangeRecord]
    ∧ addedGroup [emptyRangeRecord] = []
    ∧ changedGroup [emptyRangeRecord] = []
    ∧ removedGroup [emptyRangeRecord] = []
    ∧ formatFile emptyRangeFile
        = "\n\"package.json\" *(0 modified, 0 added, 0 removed)*:\n```\n\n```" := by
  refine ⟨by decide, rfl, rfl, rfl, by decide⟩

/-- Claim C6 (amended): the three groups are re-derived from the JS
truthiness (present and nonempty) of each record's previous and
current fields; they are pairwise disjoint, and together they cover
exactly the records with at least one truthy field, each counted in
exactly one of the three counts and rendered as exactly one line;
records both of whose fields are absent or empty are dropped. -/
theorem formatter_partition_amended (deps : List DepChange) :
    (∀ r : DepChange,
      (r ∈ addedGroup deps ↔
        r ∈ deps ∧ fieldTruthy r.previous = false ∧ fieldTruthy r.current = true)
      ∧ (r ∈ changedGroup deps ↔
        r ∈ deps ∧ fieldTruthy r.previous = true ∧ fieldTruthy r.current = true)
      ∧ (r ∈ removedGroup deps ↔
        r ∈ deps ∧ fieldTruthy r.previous = true ∧ fieldTruthy r.current = false))
    ∧ (∀ r : DepChange,
      ¬(r ∈ addedGroup deps ∧ r ∈ changedGroup deps)
      ∧ ¬(r ∈ addedGroup deps ∧ r ∈ removedGroup deps)
      ∧ ¬(r ∈ changedGroup deps ∧ r ∈ removedGroup deps))
    ∧ (changedGroup deps).length + (addedGroup deps).length + (removedGroup deps).length
        = (deps.filter (fun r => fieldTruthy r.previous || fieldTruthy r.current)).length
    ∧ (blockLines deps).length
        = (changedGroup deps).length + (addedGroup deps).length
            + (removedGroup deps).length := by
  refine ⟨?_, ?_, group_length_sum deps, ?_⟩
  · intro r
    refine ⟨?_, ?_, ?_⟩ <;>
      simp [addedGroup, changedGroup, removedGroup, List.mem_filter]
  · intro r
    simp only [addedGroup, changedGroup, removedGroup, List.mem_filter,
      Bool.and_eq_true, Bool.not_eq_true']
    refine ⟨?_, ?_, ?_⟩ <;> rintro ⟨⟨h1, h2, h3⟩, ⟨h4, h5, h6⟩⟩ <;> simp_all
  · simp only [blockLines, List.length_append, List.length_map]

/-- Claim C7: diffing any manifest against itself produces no
records. -/
theorem diffManifest_self (A : Manifest) : diffManifest A A = [] :=
  diffManifestKeys_self DEPENDENCY_KEYS A

/-- Claim C8: the records of the reversed diff are exactly the records
of the forward diff with the previous and current roles swapped per
record: membership is preserved under the swap, the swap is an
involution that keeps the package name, and the same set of package
names is affected in both directions. -/
theorem diffManifest_swap_roles (A B : Manifest) (r : DepChange) :
    (r ∈ diffManifest B A ↔ swapChange r ∈ diffManifest A B)
    ∧ swapChange (swapChange r) = r
    ∧ (swapChange r).name = r.name
    ∧ ((∃ s ∈ diffManifest B A, s.name = r.name)
        ↔ ∃ s ∈ diffManifest A B, s.name = r.name) := by
  refine ⟨mem_diffManifest_swap A B r, rfl, rfl, ?_⟩
  constructor
  · rintro ⟨s, hs, hn⟩
    exact ⟨swapChange s, (mem_diffManifest_swap A B s).1 hs, hn⟩
  · rintro ⟨s, hs, hn⟩
    exact ⟨swapChange s, (mem_diffManifest_swap B A s).1 hs, hn⟩

/-- Claim C10: a recognized section whose value is present but falsy
(the JSON value null, or false) is treated by diffdeps exactly like a
missing section key: the result is the same as for a missing key,
namely absent, so the section contributes no records. -/
theorem diffdeps_falsy_like_missing (w : JsonSection) :
    diffdeps JsonSection.null w = diffdeps JsonSection.missing w
    ∧ diffdeps JsonSection.bfalse w = diffdeps JsonSection.missing w
    ∧ diffdeps w JsonSection.null = diffdeps w JsonSection.missing
    ∧ diffdeps w JsonSection.bfalse = diffdeps w JsonSection.missing
    ∧ diffdeps JsonSection.missing w = none
    ∧ diffdeps w JsonSection.missing = none := by
  cases w <;> exact ⟨rfl, rfl, rfl, rfl, rfl, rfl⟩

/-- A constant signing function used for concrete witnesses. -/
def sign0 : String → String → String := fun _ _ => "sha1=0"

/-- A context that fails authentication: wrong event-type header. -/
def ctxBad : Ctx :=
  { eventName := "push", signature := "sha1=0", action := "opened",
    body := "b", sharedSecret := "s", baseSha := "base", headSha := "head",
    dry := false }

/-- A context that passes authentication under sign0. -/
def ctxOk : Ctx :=
  { eventName := "pull_request", signature := "sha1=0", action := "opened",
    body := "b", sharedSecret := "s", baseSha := "base", headSha := "head",
    dry := false }

/-- A compare result with one modified package.json whose two blobs
are both the empty manifest, so its change list is empty. -/
def ghOneEmpty : Github :=
  { compareFiles := [ { status := "modified", filename := "package.json" } ],
    blob := fun _ _ => emptyManifest }

/-- An empty compare result. -/
def ghNone : Github :=
  { compareFiles := [], blob := fun _ _ => emptyManifest }

/-- Claim C2: whenever authentication passes and some candidate file
has an empty computed change list, run returns the non-error message
result no dependencies changed, regardless of what the other candidate
files contain, and no comment is posted (the result is a message, not
a comment). -/
theorem run_any_empty_short_circuits (sign : String → String → String)
    (gh : Github) (ctx : Ctx)
    (hauth : assertRequestAuth sign ctx = Except.ok ())
    (f : DiffFile) (hf : f ∈ candidateFiles gh)
    (hempty : diffManifest (gh.blob ctx.baseSha f.filename)
        (gh.blob ctx.headSha f.filename) = []) :
    run sign gh ctx = Except.ok (RunResult.message "no dependencies changed") := by
  unfold run
  rw [hauth]
  by_cases hemp : (candidateFiles gh).isEmpty
  · simp [hemp]
  · have hany : ((candidateFiles gh).map (fileDiffOf gh ctx)).any
        (fun fd => fd.dependencies.isEmpty) = true := by
      rw [List.any_eq_true]
      refine ⟨fileDiffOf gh ctx f, List.mem_map_of_mem _ hf, ?_⟩
      simp [fileDiffOf, hempty]
    simp [hemp, hany]

/-- Witness for claim C2: one candidate file with identical (empty)
manifests on both sides. -/
theorem run_any_empty_short_circuits_witness :
    run sign0 ghOneEmpty ctxOk
      = Except.ok (RunResult.message "no dependencies changed") :=
  run_any_empty_short_circuits sign0 ghOneEmpty ctxOk rfl
    { status := "modified", filename := "package.json" } (by decide) rfl

/-- Claim C9: an event whose event-type header is not pull_request, or
whose signature check fails, or whose action is not an accepted action
name, makes assertRequestAuth and hence run throw a descriptive
(nonempty) error; the error is produced for every possible GitHub API
behaviour, so no compare, blob fetch or diffing can influence it. -/
theorem run_rejects_bad_events (sign : String → String → String)
    (gh : Github) (ctx : Ctx)
    (h : ctx.eventName ≠ EVENT_NAME
        ∨ equal (sign ctx.body ctx.sharedSecret) ctx.signature = false
        ∨ ctx.action ∉ VALID_ACTIONS) :
    ∃ e : String, e ≠ "" ∧ assertRequestAuth sign ctx = Except.error e
      ∧ run sign gh ctx = Except.error e := by
  have hstep : ∃ e : String, e ≠ "" ∧ assertRequestAuth sign ctx = Except.error e := by
    unfold assertRequestAuth
    split_ifs with h1 h2 h3
    · refine ⟨"github event not supported: \"" ++ ctx.eventName ++ "\"", ?_, rfl⟩
      exact append_ne_empty_left _ _ (append_ne_empty_left _ _ (by decide))
    · exact ⟨"invalid signature", by decide, rfl⟩
    · refine ⟨"action not supported: \"" ++ ctx.eventName ++ "."
          ++ ctx.action ++ "\"", ?_, rfl⟩
      exact append_ne_empty_left _ _ (append_ne_empty_left _ _
        (append_ne_empty_left _ _ (append_ne_empty_left _ _ (by decide))))
    · exfalso
      rcases h with hh | hh | hh
      · exact h1 hh
      · simp only [Bool.not_eq_true'] at h2
        exact h2 hh
      · simp only [Bool.not_eq_true'] at h3
        exact hh (List.elem_iff.mp (Bool.of_not_eq_false h3))
  obtain ⟨e, hne, heq⟩ := hstep
  refine ⟨e, hne, heq, ?_⟩
  unfold run
  rw [heq]

/-- Witness for claim C9 at the wrong event-type header. -/
theorem run_rejects_bad_events_witness :
    (ctxBad.eventName ≠ EVENT_NAME
        ∨ equal (sign0 ctxBad.body ctxBad.sharedSecret) ctxBad.signature = false
        ∨ ctxBad.action ∉ VALID_ACTIONS)
    ∧ ∃ e : String, e ≠ "" ∧ assertRequestAuth sign0 ctxBad = Except.error e
        ∧ run sign0 ghNone ctxBad = Except.error e :=
  ⟨Or.inl (by decide),
    run_rejects_bad_events sign0 ghNone ctxBad (Or.inl (by decide))⟩

end DependencyBot
